import Mathlib

/-!
Verification of the `loopholelabs/cmdutils` command lifecycle orchestrator
(package `command`, current evolution): configuration-source merging via
viper-bound flags, the required-flag preset pass (`presetRequiredFlags` /
`postInitCommands`), the log-destination and severity setup performed in
the `cobra.OnInitialize` callback of `runCmd`, the exit-code classification
in `Execute`, the development-build warning, and `version.Format`.

Every definition is a shallow embedding translated from the Go source.
Strings stay Go strings, the process environment and the parsed config file
are explicit association lists, and abnormal `os.Exit` paths become an
`Except` error carrying the exit code.
-/

namespace Cmdutils

/-- Exit code constants from `cmdutils.go` (`ActionRequestedExitCode`,
`FatalErrExitCode`). -/
def ActionRequestedExitCode : Int := 1

/-- `const FatalErrExitCode = 2` from the root package. -/
def FatalErrExitCode : Int := 2

/-- A `pflag.Flag`: its name, current string value, registered default value
and the `Changed` bit that records whether the user set it explicitly on the
command line. `pflag.FlagSet.Set` stores the new value and sets `Changed`. -/
structure Flag where
  name : String
  value : String
  defValue : String
  changed : Bool
deriving DecidableEq

/-- `strings.NewReplacer("-", "_", ".", "_")` applied to a string: every
dash and dot becomes an underscore. -/
def replaceDashDot (s : String) : String :=
  ⟨s.data.map (fun c => if c = '-' ∨ c = '.' then '_' else c)⟩

/-- `strings.ToUpper` (flag and CLI names here are ASCII, where Go's
Unicode upper-casing agrees with `Char.toUpper`). -/
def goToUpper (s : String) : String :=
  ⟨s.data.map Char.toUpper⟩

/-- The environment-variable name viper consults for a key after
`SetEnvPrefix(strings.ToUpper(cli))` and `SetEnvKeyReplacer(replacer)`:
viper upper-cases `prefix ++ "_" ++ key` and then applies the replacer. -/
def envVarName (envPrefix : String) (key : String) : String :=
  replaceDashDot (goToUpper (envPrefix ++ "_" ++ key))

/-- The viper state relevant to the merge: the configured env prefix, the
process environment, and the key/value mapping parsed out of the config
file (empty when no file was found). -/
structure Viper where
  envPrefix : String
  env : List (String × String)
  fileValues : List (String × String)
deriving DecidableEq

/-- Viper's `getEnv` under `AutomaticEnv` with `AllowEmptyEnv` left false:
the variable counts only when present in the environment with a non-empty
value. -/
def Viper.getEnvValue (v : Viper) (key : String) : Option String :=
  match v.env.lookup (envVarName v.envPrefix key) with
  | some s => if s = "" then none else some s
  | none => none

/-- `viper.GetString(f.Name)` for a flag bound via `BindPFlags`: viper's
`find` returns, in order, the flag's value when it has changed, then the
environment value, then the config-file value, and finally the flag's
registered default. -/
def Viper.getString (v : Viper) (f : Flag) : String :=
  if f.changed then f.value
  else
    match v.getEnvValue f.name with
    | some s => s
    | none =>
      match v.fileValues.lookup f.name with
      | some s => s
      | none => f.defValue

/-- `viper.IsSet(f.Name)` for a bound flag: `find` is called without the
flag-default fallback, so the key counts as set exactly when the flag was
changed, the environment supplies a (non-empty) value, or the config file
contains the key. -/
def Viper.isSet (v : Viper) (f : Flag) : Bool :=
  f.changed || (v.getEnvValue f.name).isSome || (v.fileValues.lookup f.name).isSome

/-- The body of the `VisitAll` closure in `presetRequiredFlags`: when
`viper.IsSet(f.Name) && viper.GetString(f.Name) != ""`, the flag is set
programmatically to `viper.GetString(f.Name)`, which records the value and
marks the flag as changed. -/
def presetFlag (v : Viper) (f : Flag) : Flag :=
  if v.isSet f ∧ v.getString f ≠ "" then
    { f with value := v.getString f, changed := true }
  else f

/-- The flag-visiting part of `presetRequiredFlags(cmd)`: every flag of the
command's flag set is run through the preset closure. (The trailing
`SetConfigFile`/`SetLogFile` bookkeeping on the config struct does not touch
the flags.) -/
def presetRequiredFlags (v : Viper) (flags : List Flag) : List Flag :=
  flags.map (presetFlag v)

/-- A cobra command as the preset pass sees it: its flag set and its
subcommands. -/
inductive Cmd where
  | mk : List Flag → List Cmd → Cmd

mutual

/-- One step of `postInitCommands`: preset the command's own flags, then
recurse into its subcommands. -/
def presetCmd (v : Viper) : Cmd → Cmd
  | .mk flags subs => .mk (presetRequiredFlags v flags) (postInitCommands v subs)

/-- `postInitCommands(commands)`: for each command, run
`presetRequiredFlags` and recurse into its subcommands. -/
def postInitCommands (v : Viper) : List Cmd → List Cmd
  | [] => []
  | c :: cs => presetCmd v c :: postInitCommands v cs

end

mutual

/-- All flags declared on a command or (recursively) its subcommands. -/
def cmdFlags : Cmd → List Flag
  | .mk flags subs => flags ++ forestFlags subs

/-- All flags declared anywhere in a list of commands. -/
def forestFlags : List Cmd → List Flag
  | [] => []
  | c :: cs => cmdFlags c ++ forestFlags cs

end

/-- Cobra's `ValidateRequiredFlags` check for a single flag (external
collaborator, modelled from its documented behaviour): a required flag
passes validation exactly when its `Changed` bit is set. -/
def requiredFlagSatisfied (f : Flag) : Bool :=
  f.changed

/-- A Go error value as `Execute` classifies it: a `*cmdutils.Error`
carrying a message and an explicit exit code, any other error, or an error
wrapping another (as built by `fmt.Errorf` with `%w`). -/
inductive GoErr where
  | cmdErr (msg : String) (exitCode : Int)
  | generic (msg : String)
  | wrap (msg : String) (inner : GoErr)
deriving DecidableEq

/-- `errors.As(err, &cmdErr)` with target type `*cmdutils.Error`: walk the
unwrap chain and surface the first `cmdutils.Error`, if any. -/
def errorsAsCmdErr : GoErr → Option (String × Int)
  | .cmdErr m c => some (m, c)
  | .generic _ => none
  | .wrap _ e => errorsAsCmdErr e

/-- The tail of `Execute` after `runCmd` returns: given the command result
and the registered `logClosers` (each with the success bit its own call
would return, which the code discards), produce the exit code and the list
of closers invoked, in order. `err == nil` returns `0` immediately; on an
error the closer list is drained under the lock and then the exit code is
taken from an embedded `cmdutils.Error` or falls back to
`FatalErrExitCode`. -/
def executeFinish (runErr : Option GoErr) (logClosers : List (String × Bool)) :
    Int × List String :=
  match runErr with
  | none => (0, [])
  | some err =>
    let invoked := logClosers.map Prod.fst
    match errorsAsCmdErr err with
    | some (_, code) => (code, invoked)
    | none => (FatalErrExitCode, invoked)

/-- `version.Version`: the five build-metadata strings. -/
structure Version where
  gitCommit : String
  goVersion : String
  platform : String
  version : String
  buildDate : String
deriving DecidableEq

/-- The string `Format` returns for a self-built binary. -/
def builtFromSourceString (cli : String) : String :=
  cli ++ " version (built from source)\n"

/-- The string `Format` returns for a released binary. -/
def fullVersionString (v : Version) (cli : String) : String :=
  cli ++ " version " ++ v.version ++ " (build date: " ++ v.buildDate ++
    " git commit: " ++ v.gitCommit ++ " go version: " ++ v.goVersion ++
    " build platform: " ++ v.platform ++ ")\n"

/-- `Version.Format` from `pkg/version/version.go`: the built-from-source
branch is taken when `GitCommit() == "" && GoVersion() == "" && Platform() == ""
|| Version() == "" || BuildDate() == ""` (Go's `&&` binds tighter than
`||`). -/
def Version.format (v : Version) (cli : String) : String :=
  if (v.gitCommit = "" ∧ v.goVersion = "" ∧ v.platform = "") ∨
      v.version = "" ∨ v.buildDate = "" then
    builtFromSourceString cli
  else
    fullVersionString v cli

/-- The opt-out variable name built in `Execute`:
`fmt.Sprintf("%s_DISABLE_DEV_WARNING", strings.ToUpper(replacer.Replace(c.cli)))`. -/
def devEnvName (cli : String) : String :=
  goToUpper (replaceDashDot cli) ++ "_DISABLE_DEV_WARNING"

/-- The development-build warning decision at the top of `Execute`:
`os.LookupEnv(devEnv)` suppresses the warning whenever the variable is
present at all (with any value); otherwise the warning is printed when any
of the five version-metadata accessors returns the empty string. -/
def emitsDevWarning (env : List (String × String)) (cli : String) (v : Version) : Bool :=
  if (env.lookup (devEnvName cli)).isSome then false
  else
    v.gitCommit = "" || v.goVersion = "" || v.buildDate = "" ||
      v.version = "" || v.platform = ""

/-- `types.Level` of the logging collaborator, ordered
`Fatal < Error < Warn < Info < Debug < Trace`. -/
inductive Level where
  | fatal
  | err
  | warn
  | info
  | debug
  | trace
deriving DecidableEq

/-- `printer.Format` as the lifecycle consults it: human or JSON. -/
inductive Format where
  | human
  | json
deriving DecidableEq

/-- The logging backend chosen in the `OnInitialize` callback: zerolog for
JSON output, slog otherwise. -/
inductive LoggerKind where
  | zerolog
  | slog
deriving DecidableEq

/-- `unicode.IsSpace` for the characters Go's `strings.TrimSpace` strips:
the Unicode White_Space property. -/
def isGoSpace (c : Char) : Bool :=
  c = ' ' || c = '\t' || c = '\n' || c = '\u000b' || c = '\u000c' || c = '\r' ||
    c = '\u0085' || c = '\u00a0' || c = '\u1680' ||
    ('\u2000' ≤ c && c ≤ '\u200a') || c = '\u2028' || c = '\u2029' ||
    c = '\u202f' || c = '\u205f' || c = '\u3000'

/-- `strings.TrimSpace`: drop leading and trailing white space. -/
def goTrimSpace (s : String) : String :=
  ⟨(s.data.dropWhile isGoSpace).reverse.dropWhile isGoSpace |>.reverse⟩

/-- The log destination value held in `logOutput` after the callback runs. -/
inductive LogOutput where
  | stderrStream
  | fileOnly (path : String)
  | fileAndStderr (path : String)
deriving DecidableEq

/-- What the `cobra.OnInitialize` callback leaves behind on success: the
log destination, how many close functions it appended to `logClosers`, the
logger backend, and the severity threshold passed to `SetLevel`. -/
structure InitOutcome where
  logOutput : LogOutput
  closersAppended : Nat
  loggerKind : LoggerKind
  loggerLevel : Level
deriving DecidableEq

/-- The `cobra.OnInitialize` callback registered in `runCmd` (current
evolution): run `initConfig` (an error prints and calls
`os.Exit(FatalErrExitCode)`, modelled as `Except.error`); when
`strings.TrimSpace(logFile)` is empty, log to stderr; otherwise
`os.MkdirAll(filepath.Dir(logFile))` then
`os.OpenFile(logFile, O_CREATE|O_TRUNC|O_WRONLY)` — either failure exits
with `FatalErrExitCode` — append the file's `Close` to `logClosers`, and
multiplex to stderr exactly when the debug flag is set. The logger backend
follows `c.format` and `SetLevel` receives `c.logLevel` unchanged (the
debug flag is not consulted for the level). -/
def onInitCallback (initConfigResult : Except String Unit) (format : Format)
    (debug : Bool) (logLevel : Level) (logFile : String)
    (mkdirOk : Bool) (openOk : Bool) : Except Int InitOutcome :=
  match initConfigResult with
  | .error _ => .error FatalErrExitCode
  | .ok () =>
    if goTrimSpace logFile = "" then
      .ok { logOutput := .stderrStream, closersAppended := 0,
            loggerKind := if format = .json then .zerolog else .slog,
            loggerLevel := logLevel }
    else if !mkdirOk then .error FatalErrExitCode
    else if !openOk then .error FatalErrExitCode
    else
      .ok { logOutput := if debug then .fileAndStderr logFile else .fileOnly logFile,
            closersAppended := 1,
            loggerKind := if format = .json then .zerolog else .slog,
            loggerLevel := logLevel }

/-- `c.logLevel` as the callback observes it: initialized to
`types.InfoLevel` in `runCmd` and overwritten only when the `--log-level`
flag was parsed. -/
def resolveLogLevel (logLevelFlag : Option Level) : Level :=
  match logLevelFlag with
  | some l => l
  | none => Level.info

/-- The result of `viper.ReadInConfig()` as `initConfig` inspects it. -/
inductive ReadConfigResult where
  | ok
  | notFound
  | failed (msg : String)
deriving DecidableEq

/-- The error-relevant skeleton of `initConfig` (current evolution): a
`viper.ConfigFileNotFoundError` from `ReadInConfig` is swallowed, any other
read error returns `failed to read configuration: ...`, then
`viper.Unmarshal` may fail, and a config-directory creation failure (when a
config file is recorded) is the final error source. -/
def initConfig (readResult : ReadConfigResult) (unmarshalErr : Option String)
    (configFileUsed : String) (mkdirConfigOk : Bool) : Except String Unit :=
  match readResult with
  | .failed msg => .error ("failed to read configuration: " ++ msg)
  | _ =>
    match unmarshalErr with
    | some m => .error ("failed to unmarshal configuration: " ++ m)
    | none =>
      if configFileUsed ≠ "" ∧ ¬mkdirConfigOk then
        .error "failed to create configuration directory: "
      else
        .ok ()

/-- `command.Type`: interactive or non-interactive invocation. -/
inductive CmdType where
  | interactive
  | noninteractive
deriving DecidableEq

/-- Go `path.Clean`, expressed on the list of `/`-separated segments: empty
and `.` segments are elided, `..` pops a previous segment (and is dropped at
the root), and the result falls back to `/` or `.` when everything
cancels. -/
def pathCleanSegs (rooted : Bool) (segs : List String) : List String :=
  segs.foldl
    (fun out seg =>
      if seg = "" ∨ seg = "." then out
      else if seg = ".." then
        match out with
        | [] => if rooted then [] else [".."]
        | last :: rest => if last = ".." then seg :: out else rest
      else seg :: out)
    []

/-- Split a path at `/` characters (the segment view `path.Clean` walks). -/
def splitOnSlashAux : List Char → List Char → List String
  | [], acc => [⟨acc.reverse⟩]
  | c :: rest, acc =>
    if c = '/' then ⟨acc.reverse⟩ :: splitOnSlashAux rest []
    else splitOnSlashAux rest (c :: acc)

/-- Split a path into its `/`-separated segments. -/
def splitOnSlash (s : String) : List String :=
  splitOnSlashAux s.data []

/-- Whether a path is rooted (begins with `/`). -/
def pathRooted (s : String) : Bool :=
  match s.data with
  | '/' :: _ => true
  | _ => false

/-- Go `path.Clean`. -/
def pathClean (p : String) : String :=
  if p = "" then "."
  else
    let rooted := pathRooted p
    let out := (pathCleanSegs rooted (splitOnSlash p)).reverse
    let joined := String.intercalate "/" out
    if rooted then
      if joined = "" then "/" else "/" ++ joined
    else
      if joined = "" then "." else joined

/-- Go `path.Join`: skip leading empty elements; with nothing left return
the empty string, otherwise join with `/` and clean. -/
def pathJoin (elems : List String) : String :=
  match elems.dropWhile (fun e => e = "") with
  | [] => ""
  | rest => pathClean (String.intercalate "/" rest)

/-- The `--log` flag default computed at the top of `runCmd`: empty unless
the command type is `Interactive`, in which case it is
`path.Join(logDir, c.config.DefaultLogFile())`. -/
def runCmdLogPathDefault (t : CmdType) (logDir : String) (logFileName : String) : String :=
  match t with
  | .interactive => pathJoin [logDir, logFileName]
  | .noninteractive => ""

/-- The value held by the `logFile` variable after flag parsing: the
`--log` value when the caller supplied one, otherwise the registered
default. -/
def logFileFlagValue (userLog : Option String) (t : CmdType)
    (logDir : String) (logFileName : String) : String :=
  match userLog with
  | some p => p
  | none => runCmdLogPathDefault t logDir logFileName

mutual

/-- The flags of a preset command are exactly the flags of the original
command, each run through `presetFlag`. -/
theorem cmdFlags_presetCmd (v : Viper) (c : Cmd) :
    cmdFlags (presetCmd v c) = (cmdFlags c).map (presetFlag v) := by
  match c with
  | .mk flags subs =>
    simp [presetCmd, cmdFlags, presetRequiredFlags, forestFlags_postInit v subs]

/-- `postInitCommands` applies `presetFlag` to every flag declared anywhere
in the command forest. -/
theorem forestFlags_postInit (v : Viper) (cs : List Cmd) :
    forestFlags (postInitCommands v cs) = (forestFlags cs).map (presetFlag v) := by
  match cs with
  | [] => rfl
  | c :: rest =>
    simp [postInitCommands, forestFlags, cmdFlags_presetCmd v c,
      forestFlags_postInit v rest]

end

/-- C1: For every configuration field bound to a flag, if the flag was
explicitly set on the command line, the value the command observes after
initialization — both the merged value `viper.GetString` reports and the
flag's own value after the preset pass — is the flag's command-line value,
regardless of any environment or file content in the viper state. -/
theorem explicit_flag_wins (v : Viper) (f : Flag) (h : f.changed = true) :
    v.getString f = f.value ∧ presetFlag v f = f := by
  have hg : v.getString f = f.value := by
    simp [Viper.getString, h]
  refine ⟨hg, ?_⟩
  by_cases hv : v.isSet f ∧ v.getString f ≠ ""
  · simp only [presetFlag, if_pos hv, hg]
    cases f
    simp_all
  · simp [presetFlag, hv]

/-- Witness for `explicit_flag_wins`: a flag set to `cliVal` on the command
line keeps `cliVal` even though the environment supplies `envVal` and the
config file supplies `fileVal` for the same field. -/
theorem explicit_flag_wins_witness :
    (Viper.mk "APP" [("APP_TOKEN", "envVal")] [("token", "fileVal")]).getString
        (Flag.mk "token" "cliVal" "" true) = "cliVal" ∧
      presetFlag (Viper.mk "APP" [("APP_TOKEN", "envVal")] [("token", "fileVal")])
        (Flag.mk "token" "cliVal" "" true) = Flag.mk "token" "cliVal" "" true :=
  explicit_flag_wins _ _ rfl

/-- C2: For a declared flag that was not explicitly set on the command line
but for which the environment (non-empty, after the empty-env filter) or
the config file (non-empty value) supplies a value, the preset pass sets
the flag to that value and marks it changed, so cobra's required-flag
validation accepts it; the environment value wins over the file value; and
`postInitCommands` applies this preset to every flag declared anywhere in
the (recursive) command forest. -/
theorem preset_from_env_or_file (v : Viper) (f : Flag)
    (hnc : f.changed = false)
    (hav : (v.getEnvValue f.name).isSome ∨
      (v.getEnvValue f.name = none ∧
        ∃ s, v.fileValues.lookup f.name = some s ∧ s ≠ "")) :
    (presetFlag v f).changed = true ∧
    requiredFlagSatisfied (presetFlag v f) = true ∧
    (∀ s, v.getEnvValue f.name = some s → (presetFlag v f).value = s) ∧
    (v.getEnvValue f.name = none →
      ∀ s, v.fileValues.lookup f.name = some s → (presetFlag v f).value = s) ∧
    (∀ cmds : List Cmd,
      forestFlags (postInitCommands v cmds) = (forestFlags cmds).map (presetFlag v)) := by
  have hset : v.isSet f = true := by
    rcases hav with he | ⟨_, s, hs, _⟩
    · simp [Viper.isSet, he]
    · simp [Viper.isSet, hs]
  have hne : v.getString f ≠ "" := by
    rcases hav with he | ⟨he, s, hs, hsne⟩
    · rcases Option.isSome_iff_exists.mp he with ⟨s, hs⟩
      have hsne : s ≠ "" := by
        simp only [Viper.getEnvValue] at hs
        rcases hl : v.env.lookup (envVarName v.envPrefix f.name) with _ | t
        · rw [hl] at hs
          cases hs
        · rw [hl] at hs
          by_cases ht : t = ""
          · simp [ht] at hs
          · simp only [if_neg ht, Option.some.injEq] at hs
            exact hs ▸ ht
      simp [Viper.getString, hnc, hs, hsne]
    · simp [Viper.getString, hnc, he, hs, hsne]
  have hcond : v.isSet f ∧ v.getString f ≠ "" := ⟨hset, hne⟩
  have hpf : presetFlag v f = { f with value := v.getString f, changed := true } := by
    simp [presetFlag, hcond]
  refine ⟨by simp [hpf], by simp [requiredFlagSatisfied, hpf], ?_, ?_, forestFlags_postInit v⟩
  · intro s hs
    simp [hpf, Viper.getString, hnc, hs]
  · intro he s hs
    simp [hpf, Viper.getString, hnc, he, hs]

/-- Witness for `preset_from_env_or_file`: a `token` flag left at its empty
default is preset to the environment value `envVal`, beating the file value
`fileVal`, and passes required-flag validation. -/
theorem preset_from_env_or_file_witness :
    (presetFlag (Viper.mk "APP" [("APP_TOKEN", "envVal")] [("token", "fileVal")])
        (Flag.mk "token" "" "" false)).changed = true ∧
    requiredFlagSatisfied
      (presetFlag (Viper.mk "APP" [("APP_TOKEN", "envVal")] [("token", "fileVal")])
        (Flag.mk "token" "" "" false)) = true ∧
    (∀ s, (Viper.mk "APP" [("APP_TOKEN", "envVal")] [("token", "fileVal")]).getEnvValue
        "token" = some s →
      (presetFlag (Viper.mk "APP" [("APP_TOKEN", "envVal")] [("token", "fileVal")])
        (Flag.mk "token" "" "" false)).value = s) ∧
    ((Viper.mk "APP" [("APP_TOKEN", "envVal")] [("token", "fileVal")]).getEnvValue
        "token" = none →
      ∀ s, (Viper.mk "APP" [("APP_TOKEN", "envVal")] [("token", "fileVal")]).fileValues.lookup
          "token" = some s →
        (presetFlag (Viper.mk "APP" [("APP_TOKEN", "envVal")] [("token", "fileVal")])
          (Flag.mk "token" "" "" false)).value = s) ∧
    (∀ cmds : List Cmd,
      forestFlags (postInitCommands (Viper.mk "APP" [("APP_TOKEN", "envVal")]
        [("token", "fileVal")]) cmds) =
      (forestFlags cmds).map (presetFlag (Viper.mk "APP" [("APP_TOKEN", "envVal")]
        [("token", "fileVal")]))) :=
  preset_from_env_or_file _ _ rfl (Or.inl (by decide))

/-- C3 counterexample: on the success exit path (`runCmd` returned no
error) `Execute` reports exit code 0 without invoking the registered
closer, so a registered log-file closer is invoked zero times, not exactly
once, on that exit path. -/
theorem closers_skipped_on_success :
    executeFinish none [("logFileClose", true)] = (0, []) :=
  rfl

/-- C3 amended: only the command-failure exit path of `Execute` drains the
close-function list — there each registered closer is invoked exactly once,
in registration order, before the exit code is chosen, and flipping every
closer's own success result leaves the exit code unchanged; the success
path invokes no closer. -/
theorem closers_on_failure_path (err : GoErr) (closers : List (String × Bool)) :
    (executeFinish (some err) closers).2 = closers.map Prod.fst ∧
    (executeFinish (some err) closers).1 =
      (executeFinish (some err) (closers.map (fun p => (p.1, !p.2)))).1 ∧
    (executeFinish none closers).2 = [] := by
  cases h : errorsAsCmdErr err <;> simp [executeFinish, h]

/-- C5: `Execute` returns 0 when the command tree reports no error, the
embedded exit code when the error is or wraps a `cmdutils.Error` (5 yields
5), and the generic `FatalErrExitCode = 2` for any other error. -/
theorem execute_exit_codes (m w s : String) (code : Int)
    (closers : List (String × Bool)) :
    (executeFinish none closers).1 = 0 ∧
    (executeFinish (some (.cmdErr m code)) closers).1 = code ∧
    (executeFinish (some (.wrap w (.cmdErr m code))) closers).1 = code ∧
    (executeFinish (some (.cmdErr m 5)) closers).1 = 5 ∧
    (executeFinish (some (.generic s)) closers).1 = FatalErrExitCode ∧
    (executeFinish (some (.wrap w (.generic s))) closers).1 = FatalErrExitCode ∧
    FatalErrExitCode = 2 := by
  simp [executeFinish, errorsAsCmdErr, FatalErrExitCode]

/-- C4 counterexample: with `--debug` set and `--log-level` unset, the
severity threshold the callback passes to `SetLevel` is Info, not Trace —
the debug flag does not raise the threshold. -/
theorem debug_does_not_raise_level :
    onInitCallback (.ok ()) .human true (resolveLogLevel none) "" true true =
      .ok (InitOutcome.mk .stderrStream 0 .slog .info) ∧
    Level.info ≠ Level.trace :=
  ⟨rfl, by decide⟩

/-- C4 amended: whenever the `OnInitialize` callback completes, the
logger's severity threshold is exactly the resolved `--log-level` value —
Info when the flag is unset — independent of the debug flag and of the
destination choice; `--debug` never changes the threshold. -/
theorem logger_level_from_flag (ic : Except String Unit) (format : Format)
    (debug : Bool) (lvFlag : Option Level) (logFile : String)
    (mkdirOk openOk : Bool) (out : InitOutcome)
    (h : onInitCallback ic format debug (resolveLogLevel lvFlag) logFile
      mkdirOk openOk = .ok out) :
    out.loggerLevel = resolveLogLevel lvFlag ∧ resolveLogLevel none = Level.info := by
  refine ⟨?_, rfl⟩
  cases ic with
  | error e => simp [onInitCallback] at h
  | ok u =>
    cases u
    simp only [onInitCallback] at h
    split at h
    · cases h
      rfl
    · split at h
      · cases h
      · split at h
        · cases h
        · cases h
          rfl

/-- Witness for `logger_level_from_flag`: a debug invocation with
`--log-level` unset and an empty log path yields threshold Info. -/
theorem logger_level_from_flag_witness :
    (InitOutcome.mk .stderrStream 0 .slog .info).loggerLevel = resolveLogLevel none ∧
      resolveLogLevel none = Level.info :=
  logger_level_from_flag (.ok ()) .human true none "" true true
    (InitOutcome.mk .stderrStream 0 .slog .info) rfl

/-- C6 counterexample: with no opt-out variable set, a binary whose commit,
go version, platform and build date are all non-empty but whose version is
empty still triggers the warning (the code tests the five fields with OR,
not "all empty"); and setting the opt-out variable to the non-truthy value
`"false"` suppresses the warning for a fully empty metadata set (the code
only tests presence of the variable, not truthiness). -/
theorem dev_warning_counterexample :
    emitsDevWarning [] "app"
      (Version.mk "abc123" "go1.22" "linux/amd64" "" "2024-06-01") = true ∧
    ("abc123" : String) ≠ "" ∧
    emitsDevWarning [("APP_DISABLE_DEV_WARNING", "false")] "app"
      (Version.mk "" "" "" "" "") = false :=
  ⟨by decide, by decide, by decide⟩

/-- C6 amended: `Execute` emits the self-built-binary warning exactly when
the `<APPNAME>_DISABLE_DEV_WARNING` variable is absent from the environment
(any present value, truthy or not, suppresses it) and at least one of the
five metadata fields — commit, go version, build date, version, platform —
is empty. -/
theorem dev_warning_condition (env : List (String × String)) (cli : String)
    (v : Version) :
    emitsDevWarning env cli v = true ↔
      (env.lookup (devEnvName cli) = none ∧
        (v.gitCommit = "" ∨ v.goVersion = "" ∨ v.buildDate = "" ∨
          v.version = "" ∨ v.platform = "")) := by
  cases h : env.lookup (devEnvName cli) <;> simp [emitsDevWarning, h]
  tauto

/-- C7: a `ConfigFileNotFoundError` from `viper.ReadInConfig` is not an
error — `initConfig` returns successfully (no config file is recorded) and
the merge still resolves fields from the environment and flag defaults —
while any other read failure is a fatal resolution error, and an
`initConfig` error makes the callback abort with `FatalErrExitCode`. -/
theorem missing_config_file_ok (msg : String) (mk : Bool) (um : Option String)
    (cfu : String) (v : Viper) (f : Flag) (format : Format) (debug : Bool)
    (lv : Level) (lf : String) (mo oo : Bool)
    (hfile : v.fileValues = []) (hnc : f.changed = false) :
    initConfig .notFound none "" mk = .ok () ∧
    initConfig (.failed msg) um cfu mk =
      .error ("failed to read configuration: " ++ msg) ∧
    onInitCallback (.error ("failed to read configuration: " ++ msg)) format
      debug lv lf mo oo = .error FatalErrExitCode ∧
    v.getString f = (match v.getEnvValue f.name with
      | some s => s
      | none => f.defValue) := by
  refine ⟨by simp [initConfig], rfl, rfl, ?_⟩
  simp [Viper.getString, hnc, hfile]

/-- Witness for `missing_config_file_ok`: a viper state with no
file-sourced values resolves an unchanged flag from the environment. -/
theorem missing_config_file_ok_witness :
    initConfig .notFound none "" true = .ok () ∧
    initConfig (.failed "yaml parse error") none "/home/u/.cfg/app.yml" true =
      .error ("failed to read configuration: " ++ "yaml parse error") ∧
    onInitCallback (.error ("failed to read configuration: " ++ "yaml parse error"))
      .human false .info "" true true = .error FatalErrExitCode ∧
    (Viper.mk "APP" [("APP_TOKEN", "envVal")] []).getString
        (Flag.mk "token" "" "dflt" false) =
      (match (Viper.mk "APP" [("APP_TOKEN", "envVal")] []).getEnvValue "token" with
        | some s => s
        | none => "dflt") :=
  missing_config_file_ok "yaml parse error" true none "/home/u/.cfg/app.yml"
    (Viper.mk "APP" [("APP_TOKEN", "envVal")] [])
    (Flag.mk "token" "" "dflt" false) .human false .info "" true true rfl rfl

/-- C8: after a successful `initConfig`, an empty (post-trim) log path logs
to the standard error stream with no closer registered; a non-empty path
with a directory-creation or open failure aborts with `FatalErrExitCode`
before any command logic; and on success the destination is the file
multiplexed with stderr exactly when the debug flag is set, with the file's
closer registered. -/
theorem log_destination_choice (format : Format) (debug : Bool) (lv : Level)
    (logFile : String) (mkdirOk openOk : Bool) :
    (goTrimSpace logFile = "" →
      onInitCallback (.ok ()) format debug lv logFile mkdirOk openOk =
        .ok (InitOutcome.mk .stderrStream 0
          (if format = .json then .zerolog else .slog) lv)) ∧
    (goTrimSpace logFile ≠ "" → mkdirOk = false →
      onInitCallback (.ok ()) format debug lv logFile mkdirOk openOk =
        .error FatalErrExitCode) ∧
    (goTrimSpace logFile ≠ "" → mkdirOk = true → openOk = false →
      onInitCallback (.ok ()) format debug lv logFile mkdirOk openOk =
        .error FatalErrExitCode) ∧
    (goTrimSpace logFile ≠ "" → mkdirOk = true → openOk = true →
      onInitCallback (.ok ()) format debug lv logFile mkdirOk openOk =
        .ok (InitOutcome.mk
          (if debug then .fileAndStderr logFile else .fileOnly logFile) 1
          (if format = .json then .zerolog else .slog) lv)) := by
  refine ⟨fun ht => by simp [onInitCallback, ht],
    fun ht hm => by simp [onInitCallback, ht, hm],
    fun ht hm ho => by simp [onInitCallback, ht, hm, ho],
    fun ht hm ho => by simp [onInitCallback, ht, hm, ho]⟩

/-- Witness for `log_destination_choice`: with debug set, a concrete log
path opens the file and multiplexes to stderr, registering one closer. -/
theorem log_destination_choice_witness :
    onInitCallback (.ok ()) .human true .info "/var/log/app.log" true true =
      .ok (InitOutcome.mk (.fileAndStderr "/var/log/app.log") 1
        (if Format.human = .json then .zerolog else .slog) .info) :=
  (log_destination_choice .human true .info "/var/log/app.log" true true).2.2.2
    (by decide) rfl rfl

/-- C9: in a non-interactive invocation the `--log` default is the empty
string — no default path is joined from the schema's log resolvers — so
with no explicit `--log` the destination is the standard error stream,
while an interactive invocation defaults to
`path.Join(defaultLogDir, defaultLogFile)`. -/
theorem noninteractive_log_default (logDir logFileName : String)
    (format : Format) (debug : Bool) (lv : Level) (mo oo : Bool) :
    runCmdLogPathDefault .noninteractive logDir logFileName = "" ∧
    logFileFlagValue none .noninteractive logDir logFileName = "" ∧
    onInitCallback (.ok ()) format debug lv
        (logFileFlagValue none .noninteractive logDir logFileName) mo oo =
      .ok (InitOutcome.mk .stderrStream 0
        (if format = .json then .zerolog else .slog) lv) ∧
    runCmdLogPathDefault .interactive logDir logFileName =
      pathJoin [logDir, logFileName] := by
  refine ⟨rfl, rfl, ?_, rfl⟩
  simp [onInitCallback, logFileFlagValue, runCmdLogPathDefault, goTrimSpace]

/-- `(s ++ t).data = s.data ++ t.data`. -/
theorem string_data_append (s t : String) : (s ++ t).data = s.data ++ t.data :=
  rfl

/-- C10: `Version.Format` returns the built-from-source string exactly when
commit, go version and platform are all empty, or the version is empty, or
the build date is empty; in particular a binary with a non-empty commit but
empty version reports built-from-source, and so does one with empty commit,
go version and platform but non-empty version and build date. -/
theorem version_format_condition (v : Version) (cli : String) :
    (v.format cli = builtFromSourceString cli ↔
      ((v.gitCommit = "" ∧ v.goVersion = "" ∧ v.platform = "") ∨
        v.version = "" ∨ v.buildDate = "")) ∧
    Version.format (Version.mk "abc123" "go1.22" "linux/amd64" "" "2024-06-01")
      "app" = builtFromSourceString "app" ∧
    Version.format (Version.mk "" "" "" "1.0.0" "2024-06-01") "app" =
      builtFromSourceString "app" := by
  refine ⟨⟨fun h => ?_, fun hc => by simp [Version.format, hc]⟩, rfl, rfl⟩
  by_cases hc : (v.gitCommit = "" ∧ v.goVersion = "" ∧ v.platform = "") ∨
      v.version = "" ∨ v.buildDate = ""
  · exact hc
  · exfalso
    rw [Version.format, if_neg hc] at h
    have hcount := congrArg (fun s => s.data.count ':') h
    simp only [fullVersionString, builtFromSourceString, string_data_append,
      List.count_append] at hcount
    have e1 : (" version ").data.count ':' = 0 := by decide
    have e2 : (" (build date: ").data.count ':' = 1 := by decide
    have e3 : (" git commit: ").data.count ':' = 1 := by decide
    have e4 : (" go version: ").data.count ':' = 1 := by decide
    have e5 : (" build platform: ").data.count ':' = 1 := by decide
    have e6 : (")\n").data.count ':' = 0 := by decide
    have e7 : (" version (built from source)\n").data.count ':' = 0 := by decide
    rw [e1, e2, e3, e4, e5, e6, e7] at hcount
    omega

end Cmdutils
